import Mathlib

/-!
Shallow embedding of `src/sqlite_benchmark.cc`, a single-file SQLite benchmark
harness.  The single test table `test (key INTEGER PRIMARY KEY, value BLOB)` is
modelled as an association list from integer keys to byte-string values; the
SQL statements used by the harness (`INSERT`, `INSERT OR REPLACE`,
`SELECT ... WHERE key = ?`, `SELECT ... ORDER BY key`) become operations on
that list.  `std::uniform_int_distribution<T> dist(lo, hi)` (whose bounds are
both inclusive, per the C++ standard) applied to a raw pseudo-random draw `r`
is modelled as `lo + r % (hi - lo + 1)`.  Fatal error paths
(`CheckSqliteError` / `exit(EXIT_FAILURE)`) become `Except Fatal`.
-/

namespace SqliteBench

/-- A value blob: the C++ code always binds `std::vector<char>` buffers. -/
abbrev Value := List Char

/-- `std::vector<char> value_buffer(value_size_, c)` — a fixed-pattern byte
string of the configured size. -/
def mkValue (n : Nat) (c : Char) : Value := List.replicate n c

/-- The `test` table: rows of (key, value), keyed by `key INTEGER PRIMARY KEY`. -/
abbrev Store := List (Int × Value)

/-- `SELECT value FROM test WHERE key = ?`. -/
def lookupKey : Store → Int → Option Value
  | [], _ => none
  | (k, v) :: rest, key => if k = key then some v else lookupKey rest key

/-- Plain `INSERT INTO test (key, value) VALUES (?, ?)`: the primary-key
constraint makes the step fail (`none`) when the key is already present. -/
def insertNew (db : Store) (k : Int) (v : Value) : Option Store :=
  match lookupKey db k with
  | some _ => none
  | none => some (db ++ [(k, v)])

/-- `INSERT OR REPLACE INTO test (key, value) VALUES (?, ?)`. -/
def insertOrReplace (db : Store) (k : Int) (v : Value) : Store :=
  match lookupKey db k with
  | some _ => db.map (fun p => if p.1 = k then (k, v) else p)
  | none => db ++ [(k, v)]

/-- Number of distinct keys present in the table. -/
def distinctKeyCount (db : Store) : Nat := (db.map Prod.fst).dedup.length

/-- The primary-key invariant the engine enforces: keys are pairwise distinct. -/
def wfStore (db : Store) : Prop := (db.map Prod.fst).Nodup

/-- The raw pseudo-random stream drawn from `std::mt19937_64 rng_`. -/
abbrev RNG := Nat → Nat

/-- Skip the first `k` raw draws of the stream. -/
def advanceRng (k : Nat) (g : RNG) : RNG := fun n => g (n + k)

/-- `std::uniform_int_distribution dist(lo, hi)` applied to raw draw `r`:
uniform over the INCLUSIVE range `[lo, hi]`. -/
def uniformInt (lo hi : Int) (r : Nat) : Int := lo + (r : Int) % (hi - lo + 1)

/-- `std::uniform_int_distribution<int64_t> dist(0, num_entries_ * 10)` from
`Benchmark::fillRandom`. -/
def fillRandomKey (numEntries : Nat) (r : Nat) : Int :=
  uniformInt 0 ((numEntries : Int) * 10) r

/-- `std::uniform_int_distribution<int64_t> dist(0, num_entries_ - 1)` from
`Benchmark::readRandom` / `Benchmark::readWrite` (`key_dist`). -/
def readKeyDist (numEntries : Nat) (r : Nat) : Int :=
  uniformInt 0 ((numEntries : Int) - 1) r

/-- `std::uniform_int_distribution<int> op_dist(0, 1)` from `Benchmark::readWrite`. -/
def opDist (r : Nat) : Int := uniformInt 0 1 r

/-- Observable statement-level events of a workload, in program order. -/
inductive Event where
  | beginTxn : Event
  | commitTxn : Event
  | insertStep : Int → Bool → Event
  | readStep : Int → Bool → Event
  | scanRow : Int → Event
  deriving DecidableEq, Repr

/-- One `report(name, num_ops, ...)` line (wall-clock duration not modelled). -/
structure Report where
  name : String
  count : Nat
  deriving DecidableEq, Repr

/-- Fatal termination causes (`CheckSqliteError` → `exit(EXIT_FAILURE)`). -/
inductive Fatal where
  | openFailed : Fatal
  | pragmaRejected : Fatal
  | createFailed : Fatal
  | stepInsert : Fatal
  deriving DecidableEq, Repr

/-- The loop body of `Benchmark::fillSequential`: for each `i`, bind key `i`
and the fixed buffer, step the plain insert; a step that does not return
`SQLITE_DONE` is fatal (`CheckSqliteError(SQLITE_ERROR, "step insert")`). -/
def fillSeqLoop (valueSize : Nat) : List Nat → Store → Except Fatal (Store × List Event)
  | [], db => .ok (db, [])
  | i :: rest, db =>
    match insertNew db (i : Int) (mkValue valueSize 'x') with
    | none => .error .stepInsert
    | some db1 =>
      match fillSeqLoop valueSize rest db1 with
      | .error e => .error e
      | .ok r => .ok (r.1, Event.insertStep (i : Int) true :: r.2)

/-- `Benchmark::fillSequential`: BEGIN, insert keys `0..N-1`, COMMIT,
report `("fillseq", N)`. -/
def fillSequential (valueSize numEntries : Nat) (db : Store) :
    Except Fatal (Store × List Event × Report) :=
  match fillSeqLoop valueSize (List.range numEntries) db with
  | .error e => .error e
  | .ok r =>
    .ok (r.1, Event.beginTxn :: r.2 ++ [Event.commitTxn], ⟨"fillseq", numEntries⟩)

/-- The loop body of `Benchmark::fillRandom`: for each iteration, draw a key
from `dist(0, num_entries_ * 10)`, step the plain insert and IGNORE the step's
return value (a conflicting insert fails silently and the loop continues). -/
def fillRandomLoop (valueSize numEntries : Nat) (g : RNG) :
    List Nat → Store → Store × List Event
  | [], db => (db, [])
  | i :: rest, db =>
    let k := fillRandomKey numEntries (g i)
    match insertNew db k (mkValue valueSize 'x') with
    | none =>
      let r := fillRandomLoop valueSize numEntries g rest db
      (r.1, Event.insertStep k false :: r.2)
    | some db1 =>
      let r := fillRandomLoop valueSize numEntries g rest db1
      (r.1, Event.insertStep k true :: r.2)

/-- `Benchmark::fillRandom`: BEGIN, N random inserts, COMMIT,
report `("fillrandom", N)`. -/
def fillRandom (valueSize numEntries : Nat) (g : RNG) (db : Store) :
    Except Fatal (Store × List Event × Report) :=
  let r := fillRandomLoop valueSize numEntries g (List.range numEntries) db
  .ok (r.1, Event.beginTxn :: r.2 ++ [Event.commitTxn], ⟨"fillrandom", numEntries⟩)

/-- The table produced by a (silent) `fillRandom` run from the empty table. -/
def fillRandomDb (valueSize numEntries : Nat) (g : RNG) : Store :=
  match fillRandom valueSize numEntries g [] with
  | .ok r => r.1
  | .error _ => []

/-- The loop body of `Benchmark::readRandom`: N point lookups with keys from
`dist(0, num_entries_ - 1)`, counting hits (`SQLITE_ROW`). -/
def readRandomLoop (numEntries : Nat) (g : RNG) (db : Store) :
    List Nat → List Event × Nat
  | [] => ([], 0)
  | i :: rest =>
    let k := readKeyDist numEntries (g i)
    let hit := (lookupKey db k).isSome
    let r := readRandomLoop numEntries g db rest
    (Event.readStep k hit :: r.1, if hit then r.2 + 1 else r.2)

/-- `Benchmark::readRandom`: `found_count` is tracked but the report passes
`num_entries_`, hence `("readrandom", N)` regardless of hits. -/
def readRandom (numEntries : Nat) (g : RNG) (db : Store) :
    List Event × Nat × Report :=
  let r := readRandomLoop numEntries g db (List.range numEntries)
  (r.1, r.2, ⟨"readrandom", numEntries⟩)

/-- `Benchmark::readSequential`: `SELECT key, value FROM test ORDER BY key`,
stepping until exhaustion and counting rows; the report passes `found_count`,
hence `("readseq", rows visited)`. -/
def readSequential (db : Store) : List Event × Report :=
  let rows := db.insertionSort (fun a b => a.1 ≤ b.1)
  (rows.map (fun p => Event.scanRow p.1), ⟨"readseq", rows.length⟩)

/-- The loop body of `Benchmark::readWrite`: per iteration draw a key from
`key_dist(0, num_entries_ - 1)` and a coin from `op_dist(0, 1)`; coin 0 is a
point read, coin 1 an `INSERT OR REPLACE` with the 'y'-pattern buffer.  Step
results are ignored in both arms. -/
def readWriteLoop (valueSize numEntries : Nat) (g : RNG) :
    List Nat → Store → Store × List Event
  | [], db => (db, [])
  | i :: rest, db =>
    let k := readKeyDist numEntries (g (2 * i))
    if opDist (g (2 * i + 1)) = 0 then
      let hit := (lookupKey db k).isSome
      let r := readWriteLoop valueSize numEntries g rest db
      (r.1, Event.readStep k hit :: r.2)
    else
      let db1 := insertOrReplace db k (mkValue valueSize 'y')
      let r := readWriteLoop valueSize numEntries g rest db1
      (r.1, Event.insertStep k true :: r.2)

/-- `Benchmark::readWrite`: BEGIN, N mixed operations, COMMIT,
report `("readwrite", N)`. -/
def readWrite (valueSize numEntries : Nat) (g : RNG) (db : Store) :
    Except Fatal (Store × List Event × Report) :=
  let r := readWriteLoop valueSize numEntries g (List.range numEntries) db
  .ok (r.1, Event.beginTxn :: r.2 ++ [Event.commitTxn], ⟨"readwrite", numEntries⟩)

/-- The host file system: path → contents of the database file, where a file
written by this program holds the `test` table's rows. -/
abbrev FS := String → Option Store

/-- The in-memory sentinel path checked by `Benchmark::openDatabase`. -/
def memorySentinel : String := ":memory:"

/-- `unlink(db_path_.c_str())`. -/
def unlinkFs (path : String) (fs : FS) : FS :=
  fun p => if p = path then none else fs p

/-- `sqlite3_open`: `:memory:` yields a fresh empty store; an existing file is
opened with its contents; a missing file is created empty. -/
def sqlite3OpenModel (path : String) (fs : FS) : Store × FS :=
  if path = memorySentinel then ([], fs)
  else
    match fs path with
    | some s => (s, fs)
    | none => ([], fun p => if p = path then some [] else fs p)

/-- Each tuning directive is free-form; the Bool records whether the engine
accepts it (`sqlite3_exec` of the PRAGMA returning `SQLITE_OK`).  The first
rejected directive is fatal. -/
def applyPragmas : List (String × Bool) → Except Fatal Unit
  | [] => .ok ()
  | p :: rest => if p.2 then applyPragmas rest else .error .pragmaRejected

/-- `CREATE TABLE IF NOT EXISTS test (...)`: on a freshly created store the
(empty) table is created; on a pre-existing file the table and its rows are
kept.  On the row-level model both cases keep the row list unchanged. -/
def createTableIfNotExists (db : Store) : Store := db

/-- Host conditions outside the program's control: whether `sqlite3_open`
succeeds for a given path (its `rc` is checked by `CheckSqliteError(rc,
"Cannot open database...")`) and whether the `sqlite3_exec` of
`CREATE TABLE IF NOT EXISTS` succeeds (its `rc` is checked too). -/
structure Host where
  openOk : String → Bool
  createOk : Bool

/-- `Benchmark::openDatabase`: unlink the file unless the path is `:memory:`,
open (fatal on failure), apply the PRAGMA list (fatal on rejection), ensure
the table exists (fatal on failure). -/
def openDatabase (host : Host) (path : String) (pragmas : List (String × Bool))
    (fs : FS) : Except Fatal (Store × FS) :=
  let fs1 := if path = memorySentinel then fs else unlinkFs path fs
  if host.openOk path then
    let opened := sqlite3OpenModel path fs1
    match applyPragmas pragmas with
    | .error e => .error e
    | .ok _ =>
      if host.createOk then .ok (createTableIfNotExists opened.1, opened.2)
      else .error .createFailed
  else .error .openFailed

/-- Releasing the handle leaves the committed table in the backing file. -/
def closeFs (path : String) (db : Store) (fs : FS) : FS :=
  if path = memorySentinel then fs
  else fun p => if p = path then some db else fs p

/-- The handle-holding fields of class `Benchmark`: `db_` (nullptr ↔ `none`)
and `db_path_`. -/
structure BenchState where
  db_ : Option Store
  db_path_ : String

/-- `Benchmark::closeDatabase`: `if (db_) { sqlite3_close(db_); db_ = nullptr; }`. -/
def closeDatabase (b : BenchState) : BenchState :=
  match b.db_ with
  | some _ => { b with db_ := none }
  | none => b

/-- The workload names recognized by the dispatch chain in `Benchmark::run`. -/
def knownNames : List String :=
  ["fillseq", "fillrandom", "readrandom", "readseq", "readwrite"]

/-- `std::cerr << "Unknown benchmark: " << bench_name` -/
def unknownMsg (name : String) : String := "Unknown benchmark: " ++ name

/-- The if/else dispatch chain of `Benchmark::run` for one requested name:
returns the printed report (if any), stderr messages, the table as left by the
workload, and the advanced random stream.  `readrandom`, `readseq` and
`readwrite` first run `fillRandom(true)` silently. -/
def dispatch (name : String) (numEntries valueSize : Nat) (g : RNG) (db : Store) :
    Except Fatal (Option Report × List String × Store × RNG) :=
  if name = "fillseq" then
    match fillSequential valueSize numEntries db with
    | .error e => .error e
    | .ok r => .ok (some r.2.2, [], r.1, g)
  else if name = "fillrandom" then
    match fillRandom valueSize numEntries g db with
    | .error e => .error e
    | .ok r => .ok (some r.2.2, [], r.1, advanceRng numEntries g)
  else if name = "readrandom" then
    match fillRandom valueSize numEntries g db with
    | .error e => .error e
    | .ok r =>
      let rr := readRandom numEntries (advanceRng numEntries g) r.1
      .ok (some rr.2.2, [], r.1, advanceRng (numEntries + numEntries) g)
  else if name = "readseq" then
    match fillRandom valueSize numEntries g db with
    | .error e => .error e
    | .ok r =>
      let rs := readSequential r.1
      .ok (some rs.2, [], r.1, advanceRng numEntries g)
  else if name = "readwrite" then
    match fillRandom valueSize numEntries g db with
    | .error e => .error e
    | .ok r =>
      match readWrite valueSize numEntries (advanceRng numEntries g) r.1 with
      | .error e => .error e
      | .ok rw =>
        .ok (some rw.2.2, [], rw.1,
             advanceRng (numEntries + numEntries + numEntries) g)
  else
    .ok (none, [unknownMsg name], db, g)

/-- Observable outcome of `Benchmark::run` followed by `main`'s return:
process exit code, report lines, stderr messages, the table each workload saw
right after its `openDatabase()`, and the final file system. -/
structure RunOut where
  exitCode : Nat
  reports : List Report
  errs : List String
  startDbs : List Store
  fs : FS

/-- The loop of `Benchmark::run`: for each requested name, `openDatabase()`,
dispatch, `closeDatabase()`.  A fatal error (`exit(EXIT_FAILURE)`) stops the
process with exit code 1; otherwise `main` returns 0. -/
def runLoop (host : Host) (numEntries valueSize : Nat) (path : String)
    (pragmas : List (String × Bool)) (g : RNG) (fs : FS) :
    List String → RunOut
  | [] => ⟨0, [], [], [], fs⟩
  | name :: rest =>
    match openDatabase host path pragmas fs with
    | .error _ => ⟨1, [], [], [], fs⟩
    | .ok opened =>
      match dispatch name numEntries valueSize g opened.1 with
      | .error _ => ⟨1, [], [], [opened.1], opened.2⟩
      | .ok step =>
        let fs2 := closeFs path step.2.2.1 opened.2
        let out := runLoop host numEntries valueSize path pragmas step.2.2.2 fs2 rest
        ⟨out.exitCode, step.1.toList ++ out.reports, step.2.1 ++ out.errs,
         opened.1 :: out.startDbs, out.fs⟩

theorem lookupKey_append_of_none {db : Store} {k : Int} (h : lookupKey db k = none)
    (e : Store) : lookupKey (db ++ e) k = lookupKey e k := by
  induction db with
  | nil => rfl
  | cons p rest ih =>
    rw [lookupKey] at h
    by_cases hk : p.1 = k
    · simp [hk] at h
    · simp only [List.cons_append, lookupKey]
      rw [if_neg hk] at h ⊢
      exact ih h

theorem lookupKey_eq_none_iff {db : Store} {k : Int} :
    lookupKey db k = none ↔ k ∉ db.map Prod.fst := by
  induction db with
  | nil => simp [lookupKey]
  | cons p rest ih =>
    by_cases hk : p.1 = k
    · simp [lookupKey, hk]
    · simp [lookupKey, hk, ih, Ne.symm hk]

theorem insertNew_of_none {db : Store} {k : Int} (v : Value)
    (h : lookupKey db k = none) : insertNew db k v = some (db ++ [(k, v)]) := by
  unfold insertNew
  rw [h]

theorem insertNew_eq_some {db db1 : Store} {k : Int} {v : Value}
    (h : insertNew db k v = some db1) :
    lookupKey db k = none ∧ db1 = db ++ [(k, v)] := by
  unfold insertNew at h
  cases hl : lookupKey db k with
  | some w => rw [hl] at h; exact absurd h (by simp)
  | none => rw [hl] at h; exact ⟨rfl, (Option.some.inj h).symm⟩

/-- Core lemma for `fillseq`: inserting a list of pairwise-distinct keys, none
already present, succeeds and appends exactly those rows in order. -/
theorem fillSeqLoop_ok (valueSize : Nat) :
    ∀ (l : List Nat) (db : Store),
      (∀ i ∈ l, lookupKey db (i : Int) = none) → l.Nodup →
      fillSeqLoop valueSize l db =
        .ok (db ++ l.map (fun (i : Nat) => ((i : Int), mkValue valueSize 'x')),
             l.map (fun (i : Nat) => Event.insertStep (i : Int) true)) := by
  intro l
  induction l with
  | nil => intro db _ _; simp [fillSeqLoop]
  | cons i rest ih =>
    intro db hfresh hnodup
    have hi : lookupKey db (i : Int) = none := hfresh i (by simp)
    have hstep := insertNew_of_none (mkValue valueSize 'x') hi
    have hrest : ∀ j ∈ rest, lookupKey (db ++ [((i : Int), mkValue valueSize 'x')]) (j : Int) = none := by
      intro j hj
      have hj0 : lookupKey db (j : Int) = none := hfresh j (by simp [hj])
      rw [lookupKey_append_of_none hj0]
      have : i ≠ j := by
        intro hij
        exact (List.nodup_cons.mp hnodup).1 (hij ▸ hj)
      simp [lookupKey, this]
    have ihr := ih (db ++ [((i : Int), mkValue valueSize 'x')]) hrest
      (List.nodup_cons.mp hnodup).2
    simp only [fillSeqLoop, hstep, ihr, List.map_cons, List.append_assoc,
      List.singleton_append]

/-- `fillSequential` from the empty table: the exact rows, events and report. -/
theorem fillSequential_empty (valueSize numEntries : Nat) :
    fillSequential valueSize numEntries [] =
      .ok ((List.range numEntries).map (fun (i : Nat) => ((i : Int), mkValue valueSize 'x')),
           Event.beginTxn ::
             (List.range numEntries).map (fun (i : Nat) => Event.insertStep (i : Int) true)
             ++ [Event.commitTxn],
           ⟨"fillseq", numEntries⟩) := by
  unfold fillSequential
  rw [fillSeqLoop_ok valueSize (List.range numEntries) []
    (fun i _ => rfl) (List.nodup_range numEntries)]
  rfl

/-- Claim C1: for every N ≥ 0, running the fillseq workload against an empty
store inserts exactly N rows with keys 0..N-1, each row's value being the
fixed-pattern byte string of the configured value size, and reports an
operation count equal to N. -/
theorem claim_C1 (numEntries valueSize : Nat) :
    fillSequential valueSize numEntries [] =
      .ok ((List.range numEntries).map (fun (i : Nat) => ((i : Int), mkValue valueSize 'x')),
           Event.beginTxn ::
             (List.range numEntries).map (fun (i : Nat) => Event.insertStep (i : Int) true)
             ++ [Event.commitTxn],
           ⟨"fillseq", numEntries⟩) :=
  fillSequential_empty valueSize numEntries

theorem fillRandomKey_eq (numEntries r : Nat) :
    fillRandomKey numEntries r = (r : Int) % ((numEntries : Int) * 10 + 1) := by
  simp [fillRandomKey, uniformInt]

theorem fillRandomKey_bounds (numEntries r : Nat) :
    0 ≤ fillRandomKey numEntries r ∧
      fillRandomKey numEntries r ≤ (numEntries : Int) * 10 := by
  rw [fillRandomKey_eq]
  have hpos : (0 : Int) < (numEntries : Int) * 10 + 1 := by positivity
  have h1 := Int.emod_nonneg (r : Int) (by omega : ((numEntries : Int) * 10 + 1) ≠ 0)
  have h2 := Int.emod_lt_of_pos (r : Int) hpos
  omega

theorem readKeyDist_eq (numEntries r : Nat) :
    readKeyDist numEntries r = (r : Int) % (numEntries : Int) := by
  simp [readKeyDist, uniformInt]

theorem readKeyDist_bounds {numEntries : Nat} (r : Nat) (h : 0 < numEntries) :
    0 ≤ readKeyDist numEntries r ∧ readKeyDist numEntries r < (numEntries : Int) := by
  rw [readKeyDist_eq]
  have hpos : (0 : Int) < (numEntries : Int) := by exact_mod_cast h
  exact ⟨Int.emod_nonneg _ (by omega), Int.emod_lt_of_pos _ hpos⟩

theorem fillSeqLoop_events_of_ok (valueSize : Nat) :
    ∀ (l : List Nat) (db st : Store) (ev : List Event),
      fillSeqLoop valueSize l db = .ok (st, ev) →
      ev.length = l.length ∧ ∀ e ∈ ev, ∃ k, e = Event.insertStep k true := by
  intro l
  induction l with
  | nil =>
    intro db st ev h
    simp only [fillSeqLoop, Except.ok.injEq, Prod.mk.injEq] at h
    simp [h.2.symm]
  | cons i rest ih =>
    intro db st ev h
    simp only [fillSeqLoop] at h
    cases hstep : insertNew db (i : Int) (mkValue valueSize 'x') with
    | none => simp [hstep] at h
    | some db1 =>
      simp only [hstep] at h
      cases hrec : fillSeqLoop valueSize rest db1 with
      | error e => simp [hrec] at h
      | ok r =>
        obtain ⟨st1, ev1⟩ := r
        simp only [hrec] at h
        simp only [Except.ok.injEq, Prod.mk.injEq] at h
        obtain ⟨ihl, ihm⟩ := ih db1 st1 ev1 hrec
        constructor
        · rw [← h.2, List.length_cons, ihl, List.length_cons]
        · intro e he
          rw [← h.2] at he
          rcases List.mem_cons.mp he with hh | hh
          · exact ⟨(i : Int), hh⟩
          · exact ihm e hh

theorem fillRandomLoop_events (valueSize numEntries : Nat) (g : RNG) :
    ∀ (l : List Nat) (db : Store),
      ((fillRandomLoop valueSize numEntries g l db).2).length = l.length ∧
      ∀ e ∈ (fillRandomLoop valueSize numEntries g l db).2,
        ∃ i ∈ l, ∃ b, e = Event.insertStep (fillRandomKey numEntries (g i)) b := by
  intro l
  induction l with
  | nil => intro db; simp [fillRandomLoop]
  | cons i rest ih =>
    intro db
    cases hstep : insertNew db (fillRandomKey numEntries (g i)) (mkValue valueSize 'x') with
    | none =>
      simp only [fillRandomLoop, hstep]
      refine ⟨by simp [(ih db).1], ?_⟩
      intro e he
      rcases List.mem_cons.mp he with hh | hh
      · exact ⟨i, by simp, false, hh⟩
      · obtain ⟨j, hj, b, hb⟩ := (ih db).2 e hh
        exact ⟨j, by simp [hj], b, hb⟩
    | some db1 =>
      simp only [fillRandomLoop, hstep]
      refine ⟨by simp [(ih db1).1], ?_⟩
      intro e he
      rcases List.mem_cons.mp he with hh | hh
      · exact ⟨i, by simp, true, hh⟩
      · obtain ⟨j, hj, b, hb⟩ := (ih db1).2 e hh
        exact ⟨j, by simp [hj], b, hb⟩

theorem readWriteLoop_events (valueSize numEntries : Nat) (g : RNG) :
    ∀ (l : List Nat) (db : Store),
      ((readWriteLoop valueSize numEntries g l db).2).length = l.length ∧
      ∀ e ∈ (readWriteLoop valueSize numEntries g l db).2,
        e ≠ Event.beginTxn ∧ e ≠ Event.commitTxn := by
  intro l
  induction l with
  | nil => intro db; simp [readWriteLoop]
  | cons i rest ih =>
    intro db
    by_cases hop : opDist (g (2 * i + 1)) = 0
    · simp only [readWriteLoop, if_pos hop]
      refine ⟨by simp [(ih db).1], ?_⟩
      intro e he
      rcases List.mem_cons.mp he with hh | hh
      · subst hh; exact ⟨by simp, by simp⟩
      · exact (ih db).2 e hh
    · simp only [readWriteLoop, if_neg hop]
      refine ⟨by simp [(ih _).1], ?_⟩
      intro e he
      rcases List.mem_cons.mp he with hh | hh
      · subst hh; exact ⟨by simp, by simp⟩
      · exact (ih _).2 e hh

/-- Claim C2 as stated is false: with N = 1 the fillrandom key distribution is
`dist(0, num_entries_ * 10) = dist(0, 10)`, whose bounds are both inclusive,
so raw draw 10 yields key 10, which is NOT in the half-open interval
`[0, 10×N) = [0, 10)`. -/
theorem claim_C2_counterexample :
    fillRandom 1 1 (fun _ => 10) [] =
      .ok ([((10 : Int), mkValue 1 'x')],
           [Event.beginTxn, Event.insertStep 10 true, Event.commitTxn],
           ⟨"fillrandom", 1⟩) ∧
    ¬((10 : Int) < 1 * 10) := by
  exact ⟨rfl, by decide⟩

/-- Claim C2 (amended): every insert key drawn by the fillrandom workload lies
in the CLOSED interval `[0, 10×N]` (both `uniform_int_distribution` bounds are
inclusive), every value of that interval is attainable, and every insert step
the workload performs uses such a key. -/
theorem claim_C2 :
    (∀ (numEntries r : Nat),
        0 ≤ fillRandomKey numEntries r ∧
          fillRandomKey numEntries r ≤ (numEntries : Int) * 10) ∧
    (∀ (numEntries : Nat) (v : Int), 0 ≤ v → v ≤ (numEntries : Int) * 10 →
        fillRandomKey numEntries v.toNat = v) ∧
    (∀ (valueSize numEntries : Nat) (g : RNG) (db st : Store) (ev : List Event)
        (rep : Report),
        fillRandom valueSize numEntries g db = .ok (st, ev, rep) →
        ∀ (k : Int) (b : Bool), Event.insertStep k b ∈ ev →
          0 ≤ k ∧ k ≤ (numEntries : Int) * 10) := by
  refine ⟨fillRandomKey_bounds, ?_, ?_⟩
  · intro numEntries v h0 hle
    rw [fillRandomKey_eq, Int.toNat_of_nonneg h0]
    exact Int.emod_eq_of_lt h0 (by omega)
  · intro valueSize numEntries g db st ev rep h k b hmem
    simp only [fillRandom, Except.ok.injEq, Prod.mk.injEq] at h
    rw [← h.2.1] at hmem
    rcases List.mem_cons.mp hmem with hh | hh
    · exact absurd hh (by simp)
    · rcases List.mem_append.mp hh with hh2 | hh2
      · obtain ⟨i, _, b2, hb⟩ :=
          (fillRandomLoop_events valueSize numEntries g (List.range numEntries) db).2 _ hh2
        have : k = fillRandomKey numEntries (g i) := by
          simp only [Event.insertStep.injEq] at hb
          exact hb.1
        rw [this]
        exact fillRandomKey_bounds numEntries (g i)
      · exact absurd (List.mem_singleton.mp hh2) (by simp)

/-- Witness for claim C2: at N = 1 the attainability part produces key 5 from
raw draw 5, and the concrete run of fillrandom with raw draw 10 yields an
insert key (10) inside the closed interval. -/
theorem claim_C2_witness :
    fillRandomKey 1 ((5 : Int).toNat) = 5 ∧
    (0 ≤ (10 : Int) ∧ (10 : Int) ≤ (1 : Nat) * 10) :=
  ⟨claim_C2.2.1 1 5 (by decide) (by decide),
   claim_C2.2.2 1 1 (fun _ => 10) [] [((10 : Int), mkValue 1 'x')]
     [Event.beginTxn, Event.insertStep 10 true, Event.commitTxn]
     ⟨"fillrandom", 1⟩ rfl 10 true (by decide)⟩

/-- Claim C3: a failed per-row insert step is fatal only in fillseq: the
fillseq loop aborts with an error on a conflicting insert, while the
fillrandom loop silently skips a conflicting insert and continues, and both
fillrandom and readwrite always complete all N per-row steps (N steps between
BEGIN and COMMIT, hence N+2 events) without terminating. -/
theorem claim_C3 :
    (∀ (valueSize i : Nat) (l : List Nat) (db : Store),
        (lookupKey db (i : Int)).isSome = true →
        fillSeqLoop valueSize (i :: l) db = .error Fatal.stepInsert) ∧
    (∀ (valueSize numEntries : Nat) (g : RNG) (i : Nat) (l : List Nat) (db : Store),
        (lookupKey db (fillRandomKey numEntries (g i))).isSome = true →
        fillRandomLoop valueSize numEntries g (i :: l) db =
          ((fillRandomLoop valueSize numEntries g l db).1,
           Event.insertStep (fillRandomKey numEntries (g i)) false ::
             (fillRandomLoop valueSize numEntries g l db).2)) ∧
    (∀ (valueSize numEntries : Nat) (g : RNG) (db : Store),
        ∃ st ev rep, fillRandom valueSize numEntries g db = .ok (st, ev, rep) ∧
          ev.length = numEntries + 2) ∧
    (∀ (valueSize numEntries : Nat) (g : RNG) (db : Store),
        ∃ st ev rep, readWrite valueSize numEntries g db = .ok (st, ev, rep) ∧
          ev.length = numEntries + 2) := by
  refine ⟨?_, ?_, ?_, ?_⟩
  · intro valueSize i l db h
    obtain ⟨v, hv⟩ := Option.isSome_iff_exists.mp h
    simp [fillSeqLoop, insertNew, hv]
  · intro valueSize numEntries g i l db h
    obtain ⟨v, hv⟩ := Option.isSome_iff_exists.mp h
    simp [fillRandomLoop, insertNew, hv]
  · intro valueSize numEntries g db
    refine ⟨_, _, _, rfl, ?_⟩
    have := (fillRandomLoop_events valueSize numEntries g (List.range numEntries) db).1
    simp [this]
  · intro valueSize numEntries g db
    refine ⟨_, _, _, rfl, ?_⟩
    have := (readWriteLoop_events valueSize numEntries g (List.range numEntries) db).1
    simp [this]

/-- Witness for claim C3: on a table already holding key 0, the fillseq loop
aborts with the fatal step error while the fillrandom loop records the failed
step and continues. -/
theorem claim_C3_witness :
    fillSeqLoop 1 [0] [((0 : Int), mkValue 1 'x')] = .error Fatal.stepInsert ∧
    fillRandomLoop 1 1 (fun _ => 0) [0] [((0 : Int), mkValue 1 'x')] =
      ((fillRandomLoop 1 1 (fun _ => 0) [] [((0 : Int), mkValue 1 'x')]).1,
       Event.insertStep (fillRandomKey 1 0) false ::
         (fillRandomLoop 1 1 (fun _ => 0) [] [((0 : Int), mkValue 1 'x')]).2) :=
  ⟨claim_C3.1 1 0 [] [((0 : Int), mkValue 1 'x')] (by decide),
   claim_C3.2.1 1 1 (fun _ => 0) 0 [] [((0 : Int), mkValue 1 'x')] (by decide)⟩

/-- Claim C4: each write workload (fillseq, fillrandom, readwrite) wraps its N
per-row operations in exactly one transaction: the event trace is BEGIN,
then a body of exactly N operation events none of which is a BEGIN or COMMIT,
then COMMIT. -/
theorem claim_C4 :
    (∀ (valueSize numEntries : Nat) (db st : Store) (ev : List Event) (rep : Report),
        fillSequential valueSize numEntries db = .ok (st, ev, rep) →
        ∃ body, ev = Event.beginTxn :: body ++ [Event.commitTxn] ∧
          body.length = numEntries ∧
          ∀ e ∈ body, e ≠ Event.beginTxn ∧ e ≠ Event.commitTxn) ∧
    (∀ (valueSize numEntries : Nat) (g : RNG) (db st : Store) (ev : List Event)
        (rep : Report),
        fillRandom valueSize numEntries g db = .ok (st, ev, rep) →
        ∃ body, ev = Event.beginTxn :: body ++ [Event.commitTxn] ∧
          body.length = numEntries ∧
          ∀ e ∈ body, e ≠ Event.beginTxn ∧ e ≠ Event.commitTxn) ∧
    (∀ (valueSize numEntries : Nat) (g : RNG) (db st : Store) (ev : List Event)
        (rep : Report),
        readWrite valueSize numEntries g db = .ok (st, ev, rep) →
        ∃ body, ev = Event.beginTxn :: body ++ [Event.commitTxn] ∧
          body.length = numEntries ∧
          ∀ e ∈ body, e ≠ Event.beginTxn ∧ e ≠ Event.commitTxn) := by
  refine ⟨?_, ?_, ?_⟩
  · intro valueSize numEntries db st ev rep h
    unfold fillSequential at h
    cases hl : fillSeqLoop valueSize (List.range numEntries) db with
    | error e => rw [hl] at h; exact absurd h (by simp)
    | ok r =>
      obtain ⟨st1, ev1⟩ := r
      rw [hl] at h
      simp only [Except.ok.injEq, Prod.mk.injEq] at h
      refine ⟨ev1, by rw [← h.2.1], ?_, ?_⟩
      · rw [(fillSeqLoop_events_of_ok valueSize _ db st1 ev1 hl).1,
          List.length_range]
      · intro e he
        obtain ⟨k, hk⟩ := (fillSeqLoop_events_of_ok valueSize _ db st1 ev1 hl).2 e he
        subst hk
        exact ⟨by simp, by simp⟩
  · intro valueSize numEntries g db st ev rep h
    simp only [fillRandom, Except.ok.injEq, Prod.mk.injEq] at h
    refine ⟨(fillRandomLoop valueSize numEntries g (List.range numEntries) db).2,
      by rw [← h.2.1], ?_, ?_⟩
    · rw [(fillRandomLoop_events valueSize numEntries g (List.range numEntries) db).1,
        List.length_range]
    · intro e he
      obtain ⟨i, _, b, hb⟩ :=
        (fillRandomLoop_events valueSize numEntries g (List.range numEntries) db).2 e he
      subst hb
      exact ⟨by simp, by simp⟩
  · intro valueSize numEntries g db st ev rep h
    simp only [readWrite, Except.ok.injEq, Prod.mk.injEq] at h
    refine ⟨(readWriteLoop valueSize numEntries g (List.range numEntries) db).2,
      by rw [← h.2.1], ?_, ?_⟩
    · rw [(readWriteLoop_events valueSize numEntries g (List.range numEntries) db).1,
        List.length_range]
    · exact (readWriteLoop_events valueSize numEntries g (List.range numEntries) db).2

/-- Witness for claim C4: the concrete fillseq run of one row has the trace
BEGIN, one insert, COMMIT. -/
theorem claim_C4_witness :
    ∃ body,
      ([Event.beginTxn, Event.insertStep 0 true, Event.commitTxn] : List Event)
          = Event.beginTxn :: body ++ [Event.commitTxn] ∧
        body.length = 1 ∧
        ∀ e ∈ body, e ≠ Event.beginTxn ∧ e ≠ Event.commitTxn :=
  claim_C4.1 1 1 [] [((0 : Int), mkValue 1 'x')]
    [Event.beginTxn, Event.insertStep 0 true, Event.commitTxn]
    ⟨"fillseq", 1⟩ (fillSequential_empty 1 1)

theorem insertNew_wf {db db1 : Store} {k : Int} {v : Value}
    (h : insertNew db k v = some db1) (hwf : wfStore db) : wfStore db1 := by
  obtain ⟨hnone, rfl⟩ := insertNew_eq_some h
  have hk : k ∉ db.map Prod.fst := lookupKey_eq_none_iff.mp hnone
  unfold wfStore at hwf ⊢
  rw [List.map_append]
  rw [List.nodup_append]
  refine ⟨hwf, by simp, ?_⟩
  simp only [List.map_cons, List.map_nil]
  exact List.disjoint_singleton.mpr hk

theorem fillRandomLoop_wf (valueSize numEntries : Nat) (g : RNG) :
    ∀ (l : List Nat) (db : Store), wfStore db →
      wfStore (fillRandomLoop valueSize numEntries g l db).1 := by
  intro l
  induction l with
  | nil => intro db hwf; simpa [fillRandomLoop] using hwf
  | cons i rest ih =>
    intro db hwf
    cases hstep : insertNew db (fillRandomKey numEntries (g i)) (mkValue valueSize 'x') with
    | none => simp only [fillRandomLoop, hstep]; exact ih db hwf
    | some db1 => simp only [fillRandomLoop, hstep]; exact ih db1 (insertNew_wf hstep hwf)

theorem readSequential_count (db : Store) :
    (readSequential db).2.count = db.length := by
  simp [readSequential, List.length_insertionSort]

theorem distinctKeyCount_of_wf {db : Store} (hwf : wfStore db) :
    distinctKeyCount db = db.length := by
  unfold distinctKeyCount
  rw [List.dedup_eq_self.mpr hwf, List.length_map]

/-- Claim C5: the readseq report counts the rows actually visited by the full
ordered scan — exactly the distinct keys present after the silent pre-fill —
and this can differ from the configured entry count N (with N = 2 and a
constant random stream only one row exists, so 1 is reported). -/
theorem claim_C5 :
    (∀ (valueSize numEntries : Nat) (g : RNG),
        (readSequential (fillRandomDb valueSize numEntries g)).2.count =
          distinctKeyCount (fillRandomDb valueSize numEntries g)) ∧
    ((readSequential (fillRandomDb 1 2 (fun _ => 0))).2.count = 1 ∧ (1 : Nat) ≠ 2) := by
  refine ⟨?_, by decide, by decide⟩
  intro valueSize numEntries g
  have hdbeq : fillRandomDb valueSize numEntries g =
      (fillRandomLoop valueSize numEntries g (List.range numEntries) []).1 := rfl
  have hwf : wfStore (fillRandomDb valueSize numEntries g) := by
    rw [hdbeq]
    exact fillRandomLoop_wf valueSize numEntries g (List.range numEntries) []
      (by simp [wfStore])
  rw [readSequential_count, distinctKeyCount_of_wf hwf]

theorem readRandomLoop_events (numEntries : Nat) (g : RNG) (db : Store) :
    ∀ (l : List Nat),
      ((readRandomLoop numEntries g db l).1).length = l.length ∧
      ∀ e ∈ (readRandomLoop numEntries g db l).1,
        ∃ i ∈ l, e = Event.readStep (readKeyDist numEntries (g i))
          ((lookupKey db (readKeyDist numEntries (g i))).isSome) := by
  intro l
  induction l with
  | nil => simp [readRandomLoop]
  | cons i rest ih =>
    refine ⟨by simp [readRandomLoop, ih.1], ?_⟩
    intro e he
    simp only [readRandomLoop] at he
    rcases List.mem_cons.mp he with hh | hh
    · exact ⟨i, by simp, hh⟩
    · obtain ⟨j, hj, hje⟩ := ih.2 e hh
      exact ⟨j, by simp [hj], hje⟩

/-- Claim C6: the readrandom workload issues exactly N point lookups, reports
an operation count of exactly N regardless of hits and misses, and (for
N > 0) every lookup key lies in the half-open interval `[0, N)`. -/
theorem claim_C6 (numEntries : Nat) (g : RNG) (db : Store) :
    ((readRandom numEntries g db).1).length = numEntries ∧
    (readRandom numEntries g db).2.2.count = numEntries ∧
    (0 < numEntries →
      ∀ e ∈ (readRandom numEntries g db).1,
        ∃ k hit, e = Event.readStep k hit ∧ 0 ≤ k ∧ k < (numEntries : Int)) := by
  refine ⟨?_, rfl, ?_⟩
  · have := (readRandomLoop_events numEntries g db (List.range numEntries)).1
    simpa [readRandom] using this
  · intro hpos e he
    have hmem : e ∈ (readRandomLoop numEntries g db (List.range numEntries)).1 := he
    obtain ⟨i, _, hie⟩ := (readRandomLoop_events numEntries g db (List.range numEntries)).2 e hmem
    obtain ⟨hlo, hhi⟩ := readKeyDist_bounds (g i) hpos
    exact ⟨readKeyDist numEntries (g i), _, hie, hlo, hhi⟩

/-- Witness for claim C6: with N = 1 on the empty table, the single lookup
uses key 0, a miss, and the key is inside `[0, 1)`. -/
theorem claim_C6_witness :
    ∃ k hit, Event.readStep 0 false = Event.readStep k hit ∧
      0 ≤ k ∧ k < ((1 : Nat) : Int) :=
  (claim_C6 1 (fun _ => 0) []).2.2 (by decide) (Event.readStep 0 false) (by decide)

theorem unlinkFs_idem (path : String) (fs : FS) :
    unlinkFs path (unlinkFs path fs) = unlinkFs path fs := by
  funext p
  by_cases h : p = path <;> simp [unlinkFs, h]

/-- The file system produced by a successful `openDatabase`. -/
def openFs2 (path : String) (fs : FS) : FS :=
  (sqlite3OpenModel path (if path = memorySentinel then fs else unlinkFs path fs)).2

theorem sqlite3OpenModel_fresh (path : String) (fs : FS) :
    (sqlite3OpenModel path (if path = memorySentinel then fs else unlinkFs path fs)).1
      = [] := by
  by_cases hpath : path = memorySentinel
  · simp [sqlite3OpenModel, hpath]
  · simp [sqlite3OpenModel, hpath, unlinkFs]

theorem openDatabase_open_failed {host : Host} {path : String}
    (ho : host.openOk path = false) (prs : List (String × Bool)) (fs : FS) :
    openDatabase host path prs fs = .error .openFailed := by
  simp [openDatabase, ho]

theorem openDatabase_of_pragmas_error {host : Host} {path : String}
    {prs : List (String × Bool)} {e : Fatal} (ho : host.openOk path = true)
    (hp : applyPragmas prs = .error e) (fs : FS) :
    openDatabase host path prs fs = .error e := by
  simp [openDatabase, ho, hp]

theorem openDatabase_create_failed {host : Host} {path : String}
    {prs : List (String × Bool)} (ho : host.openOk path = true)
    (hp : applyPragmas prs = .ok ()) (hc : host.createOk = false) (fs : FS) :
    openDatabase host path prs fs = .error .createFailed := by
  simp [openDatabase, ho, hp, hc]

theorem openDatabase_of_pragmas_ok {host : Host} {path : String}
    {prs : List (String × Bool)} (ho : host.openOk path = true)
    (hp : applyPragmas prs = .ok ()) (hc : host.createOk = true) (fs : FS) :
    openDatabase host path prs fs = .ok ([], openFs2 path fs) := by
  unfold openDatabase openFs2
  simp only [ho, hp, hc, if_true]
  rw [sqlite3OpenModel_fresh path fs]
  rfl

theorem applyPragmas_of_all {prs : List (String × Bool)}
    (h : ∀ p ∈ prs, p.2 = true) : applyPragmas prs = .ok () := by
  induction prs with
  | nil => rfl
  | cons q rest ih =>
    have hq : q.2 = true := h q (by simp)
    simp only [applyPragmas, hq, if_pos]
    exact ih (fun p hp => h p (by simp [hp]))

theorem applyPragmas_isError {prs : List (String × Bool)}
    (h : ∃ p ∈ prs, p.2 = false) : ∃ e, applyPragmas prs = .error e := by
  induction prs with
  | nil => obtain ⟨p, hp, _⟩ := h; exact absurd hp (by simp)
  | cons q rest ih =>
    by_cases hq : q.2 = true
    · obtain ⟨p, hp, hpf⟩ := h
      rcases List.mem_cons.mp hp with rfl | hmem
      · rw [hq] at hpf; exact absurd hpf (by simp)
      · simp only [applyPragmas, hq, if_pos]
        exact ih ⟨p, hmem, hpf⟩
    · refine ⟨.pragmaRejected, ?_⟩
      simp [applyPragmas, hq]

/-- A fixed host and configuration either fail every open identically, or
every open succeeds with the empty table, independently of the file system. -/
theorem openDatabase_indep (host : Host) (path : String)
    (prs : List (String × Bool)) :
    (∃ e, ∀ fs : FS, openDatabase host path prs fs = .error e) ∨
      (∀ fs : FS, openDatabase host path prs fs = .ok ([], openFs2 path fs)) := by
  by_cases ho : host.openOk path = true
  · cases hp : applyPragmas prs with
    | error e => exact .inl ⟨e, fun fs => openDatabase_of_pragmas_error ho hp fs⟩
    | ok u =>
      cases u
      by_cases hc : host.createOk = true
      · exact .inr (fun fs => openDatabase_of_pragmas_ok ho hp hc fs)
      · rw [Bool.not_eq_true] at hc
        exact .inl ⟨.createFailed, fun fs => openDatabase_create_failed ho hp hc fs⟩
  · rw [Bool.not_eq_true] at ho
    exact .inl ⟨.openFailed, fun fs => openDatabase_open_failed ho prs fs⟩

/-- Claim C7: opening the store for a non-in-memory path deletes the existing
file first, so a successful open always yields an empty table — the previous
invocation's contents are never visible — and the result of opening does not
depend on what (if anything) the file held before. -/
theorem claim_C7 :
    (∀ (host : Host) (path : String) (pragmas : List (String × Bool)) (fs : FS)
        (db : Store) (fs1 : FS),
        path ≠ memorySentinel →
        openDatabase host path pragmas fs = .ok (db, fs1) → db = []) ∧
    (∀ (host : Host) (path : String) (pragmas : List (String × Bool)) (fs : FS),
        path ≠ memorySentinel →
        openDatabase host path pragmas fs =
          openDatabase host path pragmas (unlinkFs path fs)) := by
  constructor
  · intro host path prs fs db fs1 _ h
    rcases openDatabase_indep host path prs with ⟨e, he⟩ | hok
    · rw [he fs] at h; exact absurd h (by simp)
    · rw [hok fs] at h
      simp only [Except.ok.injEq, Prod.mk.injEq] at h
      exact h.1.symm
  · intro host path prs fs hpath
    unfold openDatabase
    rw [if_neg hpath, if_neg hpath, unlinkFs_idem]

/-- Witness for claim C7: a concrete file-backed open over a file system whose
file at the path holds a stale row yields the empty table, and deleting the
file beforehand changes nothing. -/
theorem claim_C7_witness :
    ([] : Store) = [] ∧
    openDatabase ⟨fun _ => true, true⟩ "/tmp/test.db" []
        (fun _ => some [((5 : Int), mkValue 1 'a')]) =
      openDatabase ⟨fun _ => true, true⟩ "/tmp/test.db" []
        (unlinkFs "/tmp/test.db" (fun _ => some [((5 : Int), mkValue 1 'a')])) :=
  ⟨claim_C7.1 ⟨fun _ => true, true⟩ "/tmp/test.db" []
     (fun _ => some [((5 : Int), mkValue 1 'a')]) []
     (openFs2 "/tmp/test.db" (fun _ => some [((5 : Int), mkValue 1 'a')]))
     (by decide)
     (openDatabase_of_pragmas_ok rfl (show applyPragmas [] = Except.ok () from rfl)
       rfl (fun _ => some [((5 : Int), mkValue 1 'a')])),
   claim_C7.2 ⟨fun _ => true, true⟩ "/tmp/test.db" []
     (fun _ => some [((5 : Int), mkValue 1 'a')]) (by decide)⟩

/-- Claim C9: closing the store handle is idempotent — closing twice equals
closing once, and closing an already-closed handle is a no-op. -/
theorem claim_C9 (b : BenchState) :
    closeDatabase (closeDatabase b) = closeDatabase b ∧
    (b.db_ = none → closeDatabase b = b) := by
  obtain ⟨hdl, path⟩ := b
  cases hdl with
  | none => exact ⟨rfl, fun _ => rfl⟩
  | some s => exact ⟨rfl, fun h => absurd h (by simp)⟩

/-- Witness for claim C9 at a concrete closed handle. -/
theorem claim_C9_witness :
    closeDatabase (closeDatabase ⟨none, "/tmp/test.db"⟩) =
        closeDatabase ⟨none, "/tmp/test.db"⟩ ∧
    closeDatabase ⟨none, "/tmp/test.db"⟩ = ⟨none, "/tmp/test.db"⟩ :=
  ⟨(claim_C9 ⟨none, "/tmp/test.db"⟩).1, (claim_C9 ⟨none, "/tmp/test.db"⟩).2 rfl⟩

theorem dispatch_ok_of_empty (name : String) (numEntries valueSize : Nat) (g : RNG) :
    ∃ out, dispatch name numEntries valueSize g [] = .ok out := by
  unfold dispatch
  by_cases h1 : name = "fillseq"
  · rw [if_pos h1, fillSequential_empty]
    exact ⟨_, rfl⟩
  · rw [if_neg h1]
    by_cases h2 : name = "fillrandom"
    · rw [if_pos h2]; exact ⟨_, rfl⟩
    · rw [if_neg h2]
      by_cases h3 : name = "readrandom"
      · rw [if_pos h3]; exact ⟨_, rfl⟩
      · rw [if_neg h3]
        by_cases h4 : name = "readseq"
        · rw [if_pos h4]; exact ⟨_, rfl⟩
        · rw [if_neg h4]
          by_cases h5 : name = "readwrite"
          · rw [if_pos h5]; exact ⟨_, rfl⟩
          · rw [if_neg h5]; exact ⟨_, rfl⟩

/-- The observable outcome of the run loop (exit code, reports, stderr,
observed start tables) does not depend on the initial file-system contents:
every workload opens a freshly (re)created store. -/
theorem runLoop_obs (host : Host) (numEntries valueSize : Nat) (path : String)
    (prs : List (String × Bool)) :
    ∀ (names : List String) (g : RNG) (fs fsB : FS),
      (runLoop host numEntries valueSize path prs g fs names).exitCode =
        (runLoop host numEntries valueSize path prs g fsB names).exitCode ∧
      (runLoop host numEntries valueSize path prs g fs names).reports =
        (runLoop host numEntries valueSize path prs g fsB names).reports ∧
      (runLoop host numEntries valueSize path prs g fs names).errs =
        (runLoop host numEntries valueSize path prs g fsB names).errs ∧
      (runLoop host numEntries valueSize path prs g fs names).startDbs =
        (runLoop host numEntries valueSize path prs g fsB names).startDbs := by
  intro names
  induction names with
  | nil => intro g fs fsB; exact ⟨rfl, rfl, rfl, rfl⟩
  | cons name rest ih =>
    intro g fs fsB
    rcases openDatabase_indep host path prs with ⟨e, he⟩ | hok
    · simp only [runLoop, he fs, he fsB]
      simp
    · simp only [runLoop, hok fs, hok fsB]
      cases hd : dispatch name numEntries valueSize g [] with
      | error e =>
        simp only [hd]
        simp
      | ok step =>
        simp only [hd]
        have ihh := ih step.2.2.2 (closeFs path step.2.2.1 (openFs2 path fs))
          (closeFs path step.2.2.1 (openFs2 path fsB))
        exact ⟨ihh.1, by rw [ihh.2.1], by rw [ihh.2.2.1], by rw [ihh.2.2.2]⟩

theorem runLoop_exit_zero (host : Host) (numEntries valueSize : Nat)
    (path : String) (prs : List (String × Bool)) (hp : ∀ p ∈ prs, p.2 = true)
    (ho : host.openOk path = true) (hc : host.createOk = true) :
    ∀ (names : List String) (g : RNG) (fs : FS),
      (runLoop host numEntries valueSize path prs g fs names).exitCode = 0 := by
  have hok : applyPragmas prs = .ok () := applyPragmas_of_all hp
  intro names
  induction names with
  | nil => intro g fs; rfl
  | cons name rest ih =>
    intro g fs
    obtain ⟨out, hout⟩ := dispatch_ok_of_empty name numEntries valueSize g
    simp only [runLoop, openDatabase_of_pragmas_ok ho hok hc fs, hout]
    exact ih _ _

theorem runLoop_exit_one (host : Host) (numEntries valueSize : Nat)
    (path : String) (prs : List (String × Bool)) (hrej : ∃ p ∈ prs, p.2 = false)
    (g : RNG) (fs : FS) (name : String) (rest : List String) :
    (runLoop host numEntries valueSize path prs g fs (name :: rest)).exitCode
      = 1 := by
  obtain ⟨e, he⟩ := applyPragmas_isError hrej
  by_cases ho : host.openOk path = true
  · simp only [runLoop, openDatabase_of_pragmas_error ho he fs]
  · rw [Bool.not_eq_true] at ho
    simp only [runLoop, openDatabase_open_failed ho prs fs]

theorem runLoop_exit_open (host : Host) (numEntries valueSize : Nat)
    (path : String) (prs : List (String × Bool)) (ho : host.openOk path = false)
    (g : RNG) (fs : FS) (name : String) (rest : List String) :
    (runLoop host numEntries valueSize path prs g fs (name :: rest)).exitCode
      = 1 := by
  simp only [runLoop, openDatabase_open_failed ho prs fs]

theorem runLoop_exit_create (host : Host) (numEntries valueSize : Nat)
    (path : String) (prs : List (String × Bool)) (hp : ∀ p ∈ prs, p.2 = true)
    (ho : host.openOk path = true) (hc : host.createOk = false)
    (g : RNG) (fs : FS) (name : String) (rest : List String) :
    (runLoop host numEntries valueSize path prs g fs (name :: rest)).exitCode
      = 1 := by
  simp only [runLoop,
    openDatabase_create_failed ho (applyPragmas_of_all hp) hc fs]

theorem runLoop_unknown_skip (host : Host) (numEntries valueSize : Nat)
    (path : String) (prs : List (String × Bool)) (hp : ∀ p ∈ prs, p.2 = true)
    (ho : host.openOk path = true) (hc : host.createOk = true)
    (u : String) (hu : u ∉ knownNames) (rest : List String) (g : RNG) (fs : FS) :
    (runLoop host numEntries valueSize path prs g fs (u :: rest)).errs =
        unknownMsg u ::
          (runLoop host numEntries valueSize path prs g fs rest).errs ∧
      (runLoop host numEntries valueSize path prs g fs (u :: rest)).reports =
        (runLoop host numEntries valueSize path prs g fs rest).reports := by
  have hok : applyPragmas prs = .ok () := applyPragmas_of_all hp
  have hu5 : u ≠ "fillseq" ∧ u ≠ "fillrandom" ∧ u ≠ "readrandom" ∧
      u ≠ "readseq" ∧ u ≠ "readwrite" := by
    simpa [knownNames, not_or] using hu
  have hd : dispatch u numEntries valueSize g [] = .ok (none, [unknownMsg u], [], g) := by
    unfold dispatch
    rw [if_neg hu5.1, if_neg hu5.2.1, if_neg hu5.2.2.1, if_neg hu5.2.2.2.1,
      if_neg hu5.2.2.2.2]
  simp only [runLoop, openDatabase_of_pragmas_ok ho hok hc fs, hd]
  obtain ⟨_, hrep, herr, _⟩ := runLoop_obs host numEntries valueSize path prs rest g
    (closeFs path [] (openFs2 path fs)) fs
  exact ⟨congrArg (List.cons (unknownMsg u)) herr, hrep⟩

/-- Claim C8: an unknown workload name puts its message on stderr and is
skipped while the rest of the requested list still runs and reports; the exit
code is 0 on normal completion (store open succeeds, every tuning directive
accepted, table creation succeeds), and 1 when the store open fails, when a
tuning directive is rejected, or when the table creation fails; a failed
sequential insert step surfaces as the same fatal error through the dispatch
chain. -/
theorem claim_C8 :
    (∀ (host : Host) (numEntries valueSize : Nat) (path : String)
        (prs : List (String × Bool)) (g : RNG) (fs : FS) (names : List String),
        (∀ p ∈ prs, p.2 = true) → host.openOk path = true →
        host.createOk = true →
        (runLoop host numEntries valueSize path prs g fs names).exitCode = 0) ∧
    (∀ (host : Host) (numEntries valueSize : Nat) (path : String)
        (prs : List (String × Bool)) (g : RNG) (fs : FS) (name : String)
        (rest : List String),
        host.openOk path = false →
        (runLoop host numEntries valueSize path prs g fs
          (name :: rest)).exitCode = 1) ∧
    (∀ (host : Host) (numEntries valueSize : Nat) (path : String)
        (prs : List (String × Bool)) (g : RNG) (fs : FS) (name : String)
        (rest : List String),
        (∃ p ∈ prs, p.2 = false) →
        (runLoop host numEntries valueSize path prs g fs
          (name :: rest)).exitCode = 1) ∧
    (∀ (host : Host) (numEntries valueSize : Nat) (path : String)
        (prs : List (String × Bool)) (g : RNG) (fs : FS) (name : String)
        (rest : List String),
        (∀ p ∈ prs, p.2 = true) → host.openOk path = true →
        host.createOk = false →
        (runLoop host numEntries valueSize path prs g fs
          (name :: rest)).exitCode = 1) ∧
    (∀ (host : Host) (numEntries valueSize : Nat) (path : String)
        (prs : List (String × Bool)) (g : RNG) (fs : FS) (u : String)
        (rest : List String),
        (∀ p ∈ prs, p.2 = true) → host.openOk path = true →
        host.createOk = true → u ∉ knownNames →
        (runLoop host numEntries valueSize path prs g fs (u :: rest)).errs =
            unknownMsg u ::
              (runLoop host numEntries valueSize path prs g fs rest).errs ∧
          (runLoop host numEntries valueSize path prs g fs (u :: rest)).reports =
            (runLoop host numEntries valueSize path prs g fs rest).reports) ∧
    (∀ (numEntries valueSize : Nat) (g : RNG) (db : Store) (e : Fatal),
        fillSequential valueSize numEntries db = .error e →
        dispatch "fillseq" numEntries valueSize g db = .error e) := by
  refine ⟨?_, ?_, ?_, ?_, ?_, ?_⟩
  · intro host nE vS path prs g fs names hp ho hc
    exact runLoop_exit_zero host nE vS path prs hp ho hc names g fs
  · intro host nE vS path prs g fs name rest ho
    exact runLoop_exit_open host nE vS path prs ho g fs name rest
  · intro host nE vS path prs g fs name rest hrej
    exact runLoop_exit_one host nE vS path prs hrej g fs name rest
  · intro host nE vS path prs g fs name rest hp ho hc
    exact runLoop_exit_create host nE vS path prs hp ho hc g fs name rest
  · intro host nE vS path prs g fs u rest hp ho hc hu
    exact runLoop_unknown_skip host nE vS path prs hp ho hc u hu rest g fs
  · intro nE vS g db e h
    unfold dispatch
    rw [if_pos rfl]
    simp only [h]

/-- Witness for claim C8: a run of an unknown name followed by fillseq exits
with 0 when open, tuning and table creation all succeed; a failed store open,
a rejected tuning directive and a failed table creation each force exit 1; the
unknown name lands on stderr with the remaining run's reports unchanged; and a
concrete conflicting fillseq insert step propagates through dispatch. -/
theorem claim_C8_witness :
    (runLoop ⟨fun _ => true, true⟩ 1 1 ":memory:" [] (fun _ => 0) (fun _ => none)
        ["bogus", "fillseq"]).exitCode = 0 ∧
    (runLoop ⟨fun _ => false, true⟩ 1 1 "/tmp/test.db" [] (fun _ => 0)
        (fun _ => none) ["fillseq"]).exitCode = 1 ∧
    (runLoop ⟨fun _ => true, true⟩ 1 1 ":memory:" [("synchronous=BAD", false)]
        (fun _ => 0) (fun _ => none) ["fillseq"]).exitCode = 1 ∧
    (runLoop ⟨fun _ => true, false⟩ 1 1 "/tmp/test.db" [] (fun _ => 0)
        (fun _ => none) ["fillseq"]).exitCode = 1 ∧
    (runLoop ⟨fun _ => true, true⟩ 1 1 ":memory:" [] (fun _ => 0) (fun _ => none)
        ["bogus"]).errs =
      unknownMsg "bogus" ::
        (runLoop ⟨fun _ => true, true⟩ 1 1 ":memory:" [] (fun _ => 0)
          (fun _ => none) []).errs ∧
    dispatch "fillseq" 1 1 (fun _ => 0) [((0 : Int), mkValue 1 'x')] =
      .error Fatal.stepInsert :=
  ⟨claim_C8.1 ⟨fun _ => true, true⟩ 1 1 ":memory:" [] (fun _ => 0)
     (fun _ => none) ["bogus", "fillseq"] (by simp) rfl rfl,
   claim_C8.2.1 ⟨fun _ => false, true⟩ 1 1 "/tmp/test.db" [] (fun _ => 0)
     (fun _ => none) "fillseq" [] rfl,
   claim_C8.2.2.1 ⟨fun _ => true, true⟩ 1 1 ":memory:"
     [("synchronous=BAD", false)] (fun _ => 0) (fun _ => none) "fillseq" []
     ⟨("synchronous=BAD", false), by simp, rfl⟩,
   claim_C8.2.2.2.1 ⟨fun _ => true, false⟩ 1 1 "/tmp/test.db" [] (fun _ => 0)
     (fun _ => none) "fillseq" [] (by simp) rfl rfl,
   (claim_C8.2.2.2.2.1 ⟨fun _ => true, true⟩ 1 1 ":memory:" [] (fun _ => 0)
     (fun _ => none) "bogus" [] (by simp) rfl rfl (by decide)).1,
   claim_C8.2.2.2.2.2 1 1 (fun _ => 0) [((0 : Int), mkValue 1 'x')]
     Fatal.stepInsert rfl⟩

/-- Claim C10: within one process invocation every requested workload runs
against a store opened immediately before it, and (for a file-backed path)
that store is always the empty table: no workload observes rows written by an
earlier workload of the same run. -/
theorem claim_C10 (host : Host) (numEntries valueSize : Nat) (path : String)
    (prs : List (String × Bool)) (g : RNG) (fs : FS) (names : List String)
    (hpath : path ≠ memorySentinel) :
    ∀ db ∈ (runLoop host numEntries valueSize path prs g fs names).startDbs,
      db = ([] : Store) := by
  induction names generalizing g fs with
  | nil => intro db hdb; simp [runLoop] at hdb
  | cons name rest ih =>
    intro db hdb
    rcases openDatabase_indep host path prs with ⟨e, he⟩ | hok
    · simp only [runLoop, he fs] at hdb
      exact absurd hdb (by simp)
    · simp only [runLoop, hok fs] at hdb
      cases hd : dispatch name numEntries valueSize g [] with
      | error e2 =>
        simp only [hd] at hdb
        simpa using hdb
      | ok step =>
        simp only [hd] at hdb
        rcases List.mem_cons.mp hdb with h | h
        · exact h
        · exact ih _ _ db h

/-- Witness for claim C10: the concrete single-workload file-backed run saw
exactly the empty table at its start. -/
theorem claim_C10_witness : ([] : Store) = [] :=
  claim_C10 ⟨fun _ => true, true⟩ 1 1 "/tmp/test.db" [] (fun _ => 0)
    (fun _ => none) ["fillrandom"] (by decide) [] (by decide)

end SqliteBench
